import Mathlib

/-
Verification of the TalkScraper pipeline core.

The development shallow-embeds the pieces of the repository that the
verified properties talk about:

  * src/utils/database_manager.py  (DatabaseManager): the SQLite state
    store is modelled as an in-memory DBState value holding the three
    logical tables (conference_urls, talk_urls, processing_log) as lists
    of rows in insertion (rowid) order.  Every SQL statement used by the
    store is translated to an explicit list transformation with the same
    key discipline (INSERT OR IGNORE on the declared UNIQUE keys, UPDATE
    with a WHERE clause on the url column alone, SELECT with filters and
    ORDER BY talk_url DESC implemented by an explicit sort on a
    lexicographic character comparison, which is what SQLite BINARY
    collation performs on these ASCII URLs).
  * src/core/talk_url_extractor.py (TalkURLExtractor): the per-conference
    retry loop of _extract_conference_talk_urls, with one network attempt
    abstracted to its observable outcome (parsed url list, a
    requests.RequestException carrying an optional HTTP status, or any
    other exception), and the per-conference body of
    _extract_language_talk_urls that decides when a conference is marked
    processed.
  * src/core/talk_content_extractor.py (TalkContentExtractor): the static
    field extraction (_extract_title, _extract_author, _extract_calling,
    _extract_content, _extract_static_content), the assembly step
    extract_complete_talk, and the per-document worker
    extract_single_talk_optimized of extract_talks_batch.  A parsed HTML
    document (BeautifulSoup object) is abstracted to a Soup record that
    answers the selector queries the code performs; the regular
    expressions the code applies to extracted text are translated to
    explicit character-list scanners below.
-/

/-! ## Python-style string primitives -/

/-- Python str.strip of an arbitrary string: drop whitespace on both ends. -/
def pyStrip (s : String) : String :=
  String.mk (((s.data.dropWhile Char.isWhitespace).reverse.dropWhile Char.isWhitespace).reverse)

/-- Lexicographic comparison of character lists, true when the first list
is less than or equal to the second.  This is the order SQLite BINARY
collation induces on the stored URL text. -/
def strLeChars : List Char → List Char → Bool
  | [], _ => true
  | _ :: _, [] => false
  | a :: as, b :: bs => if a = b then strLeChars as bs else decide (a < b)

/-- Lexicographic order on strings, used to model ORDER BY on a TEXT column. -/
def strLe (a b : String) : Bool := strLeChars a.data b.data

/-- The descending (reverse lexicographic) order used to model
ORDER BY talk_url DESC. -/
def descStr (a b : String) : Prop := strLe b a = true

instance : DecidableRel descStr := fun a b => inferInstanceAs (Decidable (strLe b a = true))

/-- The ascending order used to model ORDER BY url. -/
def ascStr (a b : String) : Prop := strLe a b = true

instance : DecidableRel ascStr := fun a b => inferInstanceAs (Decidable (strLe a b = true))

theorem strLeChars_total (as bs : List Char) : strLeChars as bs = true ∨ strLeChars bs as = true := by
  induction as generalizing bs with
  | nil => left; rfl
  | cons a as ih =>
    cases bs with
    | nil => right; rfl
    | cons b bs =>
      by_cases h : a = b
      · subst h
        rcases ih bs with h1 | h1
        · left; simp [strLeChars, h1]
        · right; simp [strLeChars, h1]
      · rcases lt_or_gt_of_ne h with hlt | hlt
        · left; simp [strLeChars, h, hlt]
        · right; simp [strLeChars, Ne.symm h, hlt, not_lt_of_gt hlt]

theorem strLeChars_trans (as bs cs : List Char) (h1 : strLeChars as bs = true)
    (h2 : strLeChars bs cs = true) : strLeChars as cs = true := by
  induction as generalizing bs cs with
  | nil => rfl
  | cons a as ih =>
    cases bs with
    | nil => simp [strLeChars] at h1
    | cons b bs =>
      cases cs with
      | nil => simp [strLeChars] at h2
      | cons c cs =>
        simp only [strLeChars] at h1 h2 ⊢
        by_cases hab : a = b
        · subst hab
          by_cases hac : a = c
          · subst hac
            simp only [if_pos rfl] at h1 h2 ⊢
            exact ih bs cs h1 h2
          · simp only [if_pos rfl] at h1
            simp only [if_neg hac] at h2 ⊢
            exact h2
        · simp only [if_neg hab] at h1
          by_cases hbc : b = c
          · subst hbc
            simp only [if_neg hab]
            exact h1
          · simp only [if_neg hbc] at h2
            by_cases hac : a = c
            · subst hac
              simp at h1 h2
              exact absurd (lt_trans h1 h2) (lt_irrefl a)
            · simp only [if_neg hac]
              simp at h1 h2 ⊢
              exact lt_trans h1 h2

instance : IsTotal String descStr :=
  ⟨fun a b => by
    rcases strLeChars_total b.data a.data with h | h
    · left; exact h
    · right; exact h⟩

instance : IsTrans String descStr :=
  ⟨fun _ b _ h1 h2 => strLeChars_trans _ b.data _ h2 h1⟩

instance : IsTotal String ascStr :=
  ⟨fun a b => by
    rcases strLeChars_total a.data b.data with h | h
    · left; exact h
    · right; exact h⟩

instance : IsTrans String ascStr :=
  ⟨fun _ b _ h1 h2 => strLeChars_trans _ b.data _ h1 h2⟩

/-! ## State store (src/utils/database_manager.py)

The three logical tables created by DatabaseManager._init_database.
A row list stands for the table content in rowid order; the id,
discovered_date and timestamp columns (defaults the code never reads
back in the modelled operations) are omitted. -/

/-- One row of the conference_urls table: UNIQUE(language, url). -/
structure ConferenceRow where
  language : String
  url : String
  processed : Bool
  deriving DecidableEq, Repr

/-- One row of the talk_urls table: UNIQUE(conference_url, talk_url). -/
structure TalkRow where
  conference_url : String
  talk_url : String
  language : String
  processed : Bool
  title : Option String
  author : Option String
  calling : Option String
  conference : Option String
  deriving DecidableEq, Repr

/-- One row of the processing_log table. -/
structure LogEntry where
  operation : String
  language : Option String
  url : Option String
  status : String
  message : Option String
  deriving DecidableEq, Repr

/-- The persistent store content.  Reopening the SQLite file yields the
same DBState, so persistence across runs is the identity on this value. -/
structure DBState where
  conference_urls : List ConferenceRow
  talk_urls : List TalkRow
  processing_log : List LogEntry
  deriving DecidableEq, Repr

/-- A freshly initialised store (empty tables). -/
def emptyDB : DBState := ⟨[], [], []⟩

/-- Presence test for the UNIQUE(language, url) key of conference_urls. -/
def hasConfKey (rows : List ConferenceRow) (language url : String) : Bool :=
  rows.any (fun r => r.language == language && r.url == url)

/-- INSERT OR IGNORE INTO conference_urls (language, url) VALUES (?, ?):
appends a new pending row unless the unique key is already present;
returns the cursor rowcount (1 when inserted, 0 when ignored). -/
def insertConferenceIgnore (rows : List ConferenceRow) (language url : String) :
    List ConferenceRow × Nat :=
  if hasConfKey rows language url then (rows, 0)
  else (rows ++ [{ language := language, url := url, processed := false }], 1)

/-- The for-loop body of DatabaseManager.store_conference_urls over the url
list, accumulating stored_count. -/
def storeConfLoop (rows : List ConferenceRow) (language : String) :
    List String → List ConferenceRow × Nat
  | [] => (rows, 0)
  | url :: rest =>
    let step := insertConferenceIgnore rows language url
    let r := storeConfLoop step.1 language rest
    (r.1, step.2 + r.2)

/-- DatabaseManager.store_conference_urls: idempotent insert of conference
URLs, returning the number of newly stored rows.  sqlite3 errors on a
single row are caught and logged by the source; in this in-memory model
no insert fails, so the operation is total. -/
def store_conference_urls (st : DBState) (language : String) (urls : List String) :
    DBState × Nat :=
  let r := storeConfLoop st.conference_urls language urls
  ({ st with conference_urls := r.1 }, r.2)

/-- Presence test for the UNIQUE(conference_url, talk_url) key of talk_urls.
The language column is not part of the key. -/
def hasTalkKey (rows : List TalkRow) (conference_url talk_url : String) : Bool :=
  rows.any (fun r => r.conference_url == conference_url && r.talk_url == talk_url)

/-- INSERT OR IGNORE INTO talk_urls (conference_url, talk_url, language). -/
def insertTalkIgnore (rows : List TalkRow) (conference_url talk_url language : String) :
    List TalkRow × Nat :=
  if hasTalkKey rows conference_url talk_url then (rows, 0)
  else (rows ++ [{ conference_url := conference_url, talk_url := talk_url,
                   language := language, processed := false,
                   title := none, author := none, calling := none, conference := none }], 1)

/-- The for-loop body of DatabaseManager.store_talk_urls. -/
def storeTalkLoop (rows : List TalkRow) (conference_url language : String) :
    List String → List TalkRow × Nat
  | [] => (rows, 0)
  | url :: rest =>
    let step := insertTalkIgnore rows conference_url url language
    let r := storeTalkLoop step.1 conference_url language rest
    (r.1, step.2 + r.2)

/-- DatabaseManager.store_talk_urls: idempotent insert of talk URLs under a
parent conference, returning the number of newly stored rows.  Only the
talk_urls table is touched. -/
def store_talk_urls (st : DBState) (conference_url language : String) (talk_urls : List String) :
    DBState × Nat :=
  let r := storeTalkLoop st.talk_urls conference_url language talk_urls
  ({ st with talk_urls := r.1 }, r.2)

/-- DatabaseManager.mark_conference_processed:
UPDATE conference_urls SET processed = TRUE WHERE url = ?.
The WHERE clause names the url column only, so every row carrying that
url string is updated, in every language. -/
def mark_conference_processed (st : DBState) (conference_url : String) : DBState :=
  { st with conference_urls :=
      st.conference_urls.map (fun r =>
        if r.url == conference_url then { r with processed := true } else r) }

/-- DatabaseManager.mark_talk_processed:
UPDATE talk_urls SET processed = TRUE WHERE talk_url = ?, then
INSERT INTO processing_log (operation, url, status, message); the language
column of the log row is not supplied and stays NULL. -/
def mark_talk_processed (st : DBState) (talk_url : String) (success : Bool) : DBState :=
  { st with
    talk_urls :=
      st.talk_urls.map (fun r =>
        if r.talk_url == talk_url then { r with processed := true } else r),
    processing_log :=
      st.processing_log ++
        [{ operation := "talk_content_extraction",
           language := none,
           url := some talk_url,
           status := if success then "success" else "failed",
           message := some (if success then "Talk content extraction completed"
                            else "Talk content extraction failed") }] }

/-- DatabaseManager.get_unprocessed_talk_urls:
SELECT talk_url FROM talk_urls WHERE language = ? AND processed = FALSE
ORDER BY talk_url DESC [LIMIT ?]. -/
def get_unprocessed_talk_urls (st : DBState) (language : String) (limit : Option Nat) :
    List String :=
  let pending := (st.talk_urls.filter
      (fun r => r.language == language && !r.processed)).map (fun r => r.talk_url)
  let sorted := List.insertionSort descStr pending
  match limit with
  | some n => sorted.take n
  | none => sorted

/-- DatabaseManager.get_unprocessed_conference_urls:
SELECT url FROM conference_urls WHERE language = ? AND processed = FALSE
ORDER BY url. -/
def get_unprocessed_conference_urls (st : DBState) (language : String) : List String :=
  List.insertionSort ascStr
    ((st.conference_urls.filter
        (fun r => r.language == language && !r.processed)).map (fun r => r.url))

/-- The talk_urls half of DatabaseManager.get_processing_stats, read off for
one language group: the pair (COUNT, SUM of processed rows) that the
GROUP BY language query reports for that language. -/
def get_processing_stats_talks (st : DBState) (language : String) : Nat × Nat :=
  let rows := st.talk_urls.filter (fun r => r.language == language)
  (rows.length, (rows.filter (fun r => r.processed)).length)

/-! ## Stage 2 enumerator (src/core/talk_url_extractor.py) -/

/-- The observable outcome of one fetch-and-parse attempt inside
TalkURLExtractor._extract_conference_talk_urls:

  * success: session.get and raise_for_status succeeded and the selector
    scan produced this list of (filtered, absolutised) talk URLs;
  * reqError: a requests.RequestException was raised.  raise_for_status
    raises requests.HTTPError, a RequestException subclass, for every
    non-2xx response, so an HTTP error response lands here; the optional
    field records the HTTP status code when the exception came from
    raise_for_status (404 for a 4xx client error) and none for a purely
    network-level failure (timeout, connection reset);
  * otherError: any other exception, raised after zero or more URLs were
    appended in this attempt (the partially collected list is kept,
    matching the break with the accumulated talk_urls). -/
inductive FetchOutcome where
  | success (talkUrls : List String)
  | reqError (httpStatus : Option Nat)
  | otherError (partialUrls : List String)
  deriving DecidableEq, Repr

/-- The for attempt in range(retry_attempts) loop of
_extract_conference_talk_urls, starting at attempt index i with the given
number of remaining iterations.  Returns the resulting talk_urls list and
the number of attempts performed.  On success or a non-request exception
the loop breaks; on a RequestException it sleeps retry_delay and
continues, and after the final attempt it logs and falls out of the loop
returning the (still empty) accumulated list. -/
def fetchAttemptLoop (outcomes : Nat → FetchOutcome) (i : Nat) : Nat → List String × Nat
  | 0 => ([], 0)
  | remaining + 1 =>
    match outcomes i with
    | FetchOutcome.success urls => (urls, 1)
    | FetchOutcome.otherError partialUrls => (partialUrls, 1)
    | FetchOutcome.reqError _ =>
      let r := fetchAttemptLoop outcomes (i + 1) remaining
      (r.1, r.2 + 1)

/-- TalkURLExtractor._extract_conference_talk_urls, abstracted over the
outcome of each attempt: the extracted URL list and the number of
attempts the loop performed. -/
def extract_conference_talk_urls (outcomes : Nat → FetchOutcome) (retryAttempts : Nat) :
    List String × Nat :=
  fetchAttemptLoop outcomes 0 retryAttempts

/-- The per-conference body of
TalkURLExtractor._extract_language_talk_urls (the try block around one
conference URL): when the fetched talk_urls list is non-empty the URLs
are stored, and the conference is marked processed only when
store_talk_urls reports at least one newly stored row; otherwise the
conference row is left as it is (pending). -/
def processConference (st : DBState) (conference_url language : String)
    (talk_urls : List String) : DBState :=
  if talk_urls.isEmpty then st
  else
    let r := store_talk_urls st conference_url language talk_urls
    if 0 < r.2 then mark_conference_processed r.1 conference_url else r.1

/-! ## Stage 3 extractor (src/core/talk_content_extractor.py)

A fetched and parsed page (requests response fed to BeautifulSoup) is
abstracted to the answers it gives to the queries the extractor
performs: select_one text per CSS selector, the paragraph list under the
first element matching a content selector, the line-split byline text,
and the document-wide paragraph list.  Each paragraph carries both its
stripped text and the string _format_paragraph_html produces for it (an
HTML rewriting of attributes and links whose output the modelled
properties treat as opaque). -/

/-- One p element: its get_text(strip=True) text and the result of
TalkContentExtractor._format_paragraph_html on it. -/
structure Para where
  text : String
  formatted : String
  deriving DecidableEq, Repr

/-- Abstraction of a parsed page (BeautifulSoup document):
selText s models soup.select_one(s).get_text(strip=True) (none when the
selector matches nothing), selParas s models the find_all p list under
the first element matching s, selLines s models the newline-separated
pieces of soup.select_one(s).get_text with a newline separator, and
allParas models soup.find_all p over the whole document. -/
structure Soup where
  selText : String → Option String
  selParas : String → Option (List Para)
  selLines : String → Option (List String)
  allParas : List Para

/-- The ordered title selector candidates of _extract_title. -/
def title_selectors : List String :=
  ["h1.title", "h1", ".title-block h1", ".title", "[data-testid=\"title\"]", ".study-title"]

/-- The ordered author selector candidates of _extract_author. -/
def author_selectors : List String :=
  [".byline .author", ".author-name", ".byline", ".author", "[data-testid=\"author\"]",
   ".study-author", "p.author"]

/-- The ordered calling selector candidates of _extract_calling. -/
def calling_selectors : List String :=
  [".byline .calling", ".author-calling", ".calling", ".position", "[data-testid=\"calling\"]",
   ".study-calling"]

/-- The ordered content selector candidates of _extract_content. -/
def content_selectors : List String :=
  [".body-block", ".study-content", ".content", "[data-testid=\"content\"]", ".articleBody"]

/-- Case-insensitive match of the literal word w at the head of cs,
returning the remainder on success. -/
def dropCIWord : List Char → List Char → Option (List Char)
  | [], cs => some cs
  | _ :: _, [] => none
  | w :: ws, c :: cs => if c.toLower = w.toLower then dropCIWord ws cs else none

/-- One or more whitespace characters at the head of cs, consumed
greedily, returning the remainder on success. -/
def dropWsPlus : List Char → Option (List Char)
  | c :: rest => if c.isWhitespace then some (rest.dropWhile Char.isWhitespace) else none
  | [] => none

/-- A case-insensitive word followed by at least one whitespace character
at the head of cs. -/
def matchWordWs (w : List Char) (cs : List Char) : Option (List Char) :=
  match dropCIWord w cs with
  | some rest => dropWsPlus rest
  | none => none

/-- re.sub applied in _extract_author to strip a leading author prefix:
the pattern anchors at the start of the string (so at most one
substitution happens), tries By followed by whitespace and then Por
followed by whitespace, case-insensitively, and removes the match. -/
def stripAuthorPref (s : String) : String :=
  match matchWordWs ['b', 'y'] s.data with
  | some rest => String.mk rest
  | none =>
    match matchWordWs ['p', 'o', 'r'] s.data with
    | some rest => String.mk rest
    | none => s

/-- The anchored author fallback pattern of _extract_author (search with a
start anchor, IGNORECASE): By or Por, whitespace, then the captured group
consisting of one ASCII letter followed by the greedy run of letters,
whitespace and dots (with IGNORECASE the leading character class also
accepts lowercase letters).  Returns the captured group. -/
def bylineAuthorMatch (cs : List Char) : Option String :=
  let grab : List Char → Option String := fun rest =>
    match rest with
    | c :: rest2 =>
      if c.isAlpha then
        some (String.mk (c :: rest2.takeWhile
          (fun ch => ch.isAlpha || ch.isWhitespace || ch = '.')))
      else none
    | [] => none
  match matchWordWs ['b', 'y'] cs with
  | some rest => grab rest
  | none =>
    match matchWordWs ['p', 'o', 'r'] cs with
    | some rest => grab rest
    | none => none

/-- The selector loop of _extract_title: first candidate whose element
exists with non-empty text longer than 3 characters. -/
def firstTitleFrom (soup : Soup) : List String → Option String
  | [] => none
  | s :: rest =>
    match soup.selText s with
    | some t => if t ≠ "" ∧ t.length > 3 then some t else firstTitleFrom soup rest
    | none => firstTitleFrom soup rest

/-- TalkContentExtractor._extract_title. -/
def _extract_title (soup : Soup) : Option String :=
  firstTitleFrom soup title_selectors

/-- The selector loop of _extract_author: first candidate whose element
text, after stripping a By or Por lead, is non-empty and longer than 2
characters. -/
def firstAuthorFrom (soup : Soup) : List String → Option String
  | [] => none
  | s :: rest =>
    match soup.selText s with
    | some t =>
      let author := stripAuthorPref t
      if author ≠ "" ∧ author.length > 2 then some author else firstAuthorFrom soup rest
    | none => firstAuthorFrom soup rest

/-- The paragraph fallback loop of _extract_author over the first five
paragraphs: the captured By-pattern group, stripped, when longer than 2
characters. -/
def fallbackAuthorFrom : List Para → Option String
  | [] => none
  | p :: rest =>
    match bylineAuthorMatch p.text.data with
    | some g =>
      let author := pyStrip g
      if author.length > 2 then some author else fallbackAuthorFrom rest
    | none => fallbackAuthorFrom rest

/-- TalkContentExtractor._extract_author. -/
def _extract_author (soup : Soup) : Option String :=
  match firstAuthorFrom soup author_selectors with
  | some a => some a
  | none => fallbackAuthorFrom (soup.allParas.take 5)

/-- A token of one of the calling regex patterns: either an alternation of
literal words (matched case-insensitively) or a one-or-more whitespace
run.  No literal in these patterns starts with whitespace, so greedy
whitespace consumption never needs backtracking. -/
inductive PTok where
  | lit : List String → PTok
  | ws : PTok

/-- Match a token sequence at the head of cs. -/
def matchPat : List PTok → List Char → Bool
  | [], _ => true
  | PTok.ws :: ps, cs =>
    match cs with
    | c :: rest => c.isWhitespace && matchPat ps (rest.dropWhile Char.isWhitespace)
    | [] => false
  | PTok.lit alts :: ps, cs =>
    alts.any (fun a =>
      match dropCIWord a.data cs with
      | some rest => matchPat ps rest
      | none => false)

/-- re.search of a token sequence: match at any position of cs. -/
def searchPat (ps : List PTok) : List Char → Bool
  | [] => matchPat ps []
  | c :: rest => matchPat ps (c :: rest) || searchPat ps rest

/-- The calling_patterns list of _extract_calling, translated token by
token from the six regular expressions. -/
def calling_patterns : List (List PTok) :=
  [[PTok.lit ["President", "Elder", "Bishop", "Member", "Sister", "Brother", "Apostle"],
    PTok.ws, PTok.lit ["of"], PTok.ws],
   [PTok.lit ["First", "Second"], PTok.ws, PTok.lit ["Counselor"]],
   [PTok.lit ["Presiding"], PTok.ws, PTok.lit ["Bishop"]],
   [PTok.lit ["General"], PTok.ws, PTok.lit ["Authority", "Officer"]],
   [PTok.lit ["Quorum"], PTok.ws, PTok.lit ["of"], PTok.ws, PTok.lit ["the"], PTok.ws,
    PTok.lit ["Twelve"]],
   [PTok.lit ["First"], PTok.ws, PTok.lit ["Presidency"]]]

/-- The inner pattern loop of _extract_calling on one paragraph text: when
a pattern occurs in the text, the candidate calling is the text up to the
first dot, stripped; it is returned when its length is strictly between
5 and 100, otherwise the remaining patterns are tried. -/
def callingFromText (text : String) : List (List PTok) → Option String
  | [] => none
  | pat :: rest =>
    if searchPat pat text.data then
      let calling := pyStrip (String.mk (text.data.takeWhile (fun c => c ≠ '.')))
      if calling.length > 5 ∧ calling.length < 100 then some calling
      else callingFromText text rest
    else callingFromText text rest

/-- The paragraph loop of _extract_calling over the first ten paragraphs. -/
def callingFromParas : List Para → Option String
  | [] => none
  | p :: rest =>
    match callingFromText p.text calling_patterns with
    | some c => some c
    | none => callingFromParas rest

/-- The selector loop of _extract_calling: first candidate whose element
text is non-empty and longer than 3 characters. -/
def firstCallingFrom (soup : Soup) : List String → Option String
  | [] => none
  | s :: rest =>
    match soup.selText s with
    | some t => if t ≠ "" ∧ t.length > 3 then some t else firstCallingFrom soup rest
    | none => firstCallingFrom soup rest

/-- The byline fallback of _extract_calling: split the byline element text
on newlines, strip each line and keep the non-empty ones; with at least
two lines the second is the calling when non-empty and longer than 3
characters. -/
def bylineCalling (soup : Soup) : Option String :=
  match soup.selLines (".byline") with
  | some rawLines =>
    match (rawLines.map pyStrip).filter (fun l => l ≠ "") with
    | _ :: second :: _ =>
      if second ≠ "" ∧ second.length > 3 then some second else none
    | _ => none
  | none => none

/-- TalkContentExtractor._extract_calling. -/
def _extract_calling (soup : Soup) : Option String :=
  match firstCallingFrom soup calling_selectors with
  | some c => some c
  | none =>
    match bylineCalling soup with
    | some c => some c
    | none => callingFromParas (soup.allParas.take 10)

/-- The content selector loop of _extract_content: paragraph list under the
first matching element, none when no selector matches (the caller then
falls back to the document-wide paragraph list). -/
def firstContentParas (soup : Soup) : List String → Option (List Para)
  | [] => none
  | s :: rest =>
    match soup.selParas s with
    | some ps => some ps
    | none => firstContentParas soup rest

/-- TalkContentExtractor._extract_content: pick the content element (or the
whole document), fail when it has no paragraphs, skip paragraphs whose
stripped text is shorter than 20 characters, keep the non-empty formatted
paragraphs, and fail when nothing remains. -/
def _extract_content (soup : Soup) : Option String :=
  let contentParas :=
    match firstContentParas soup content_selectors with
    | some ps => ps
    | none => soup.allParas
  match contentParas with
  | [] => none
  | _ =>
    let formatted := contentParas.foldr
      (fun p acc =>
        if p.text.length < 20 then acc
        else if p.formatted ≠ "" then p.formatted :: acc else acc) []
    match formatted with
    | [] => none
    | _ => some (String.intercalate "\n" formatted)

/-- Case-sensitive literal match at the head of cs, returning the
remainder on success. -/
def dropLit : List Char → List Char → Option (List Char)
  | [], cs => some cs
  | _ :: _, [] => none
  | p :: ps, c :: cs => if p = c then dropLit ps cs else none

/-- Substring test at the head position. -/
def subAt : List Char → List Char → Bool
  | [], _ => true
  | _ :: _, [] => false
  | p :: ps, c :: cs => p = c && subAt ps cs

/-- Substring scan over all positions. -/
def containsSubAux (p : List Char) : List Char → Bool
  | [] => subAt p []
  | c :: rest => subAt p (c :: rest) || containsSubAux p rest

/-- Python in operator on strings: pat occurs somewhere in s. -/
def containsSub (pat s : String) : Bool := containsSubAux pat.data s.data

/-- Attempt, at the current position, the url pattern of
_extract_static_content: the literal general-conference path segment,
four digits, a slash, two digits, a slash; on success return the two
captured digit groups (year, session number). -/
def matchConfAt (cs : List Char) : Option (String × String) :=
  match dropLit ("/general-conference/").data cs with
  | none => none
  | some rest =>
    let y := rest.take 4
    if y.length = 4 ∧ y.all Char.isDigit then
      match rest.drop 4 with
      | '/' :: rest2 =>
        let m := rest2.take 2
        if m.length = 2 ∧ m.all Char.isDigit then
          match rest2.drop 2 with
          | '/' :: _ => some (String.mk y, String.mk m)
          | _ => none
        else none
      | _ => none
    else none

/-- re.search scan of the url pattern: first position where it matches. -/
def searchConfSessionAux : List Char → Option (String × String)
  | [] => matchConfAt []
  | c :: rest =>
    match matchConfAt (c :: rest) with
    | some r => some r
    | none => searchConfSessionAux rest

/-- The year and session capture of the url regex in
_extract_static_content. -/
def searchConfSession (url : String) : Option (String × String) :=
  searchConfSessionAux url.data

/-- The dictionary _extract_static_content builds on success. -/
structure StaticData where
  title : String
  author : String
  calling : String
  content : String
  language : String
  year : String
  conference_session : String
  deriving DecidableEq, Repr

/-- TalkContentExtractor._extract_static_content.  The fetched argument is
the parsed response page: none models the session.get call or
raise_for_status raising, which the surrounding try block turns into a
None return.  On a page, the steps run in source order: language from the
url query string, year and session from the url path (failing when the
pattern is absent), then title, author (each failing when their
extractors return nothing), the calling with its placeholder default, and
the content (failing when empty). -/
def _extract_static_content (url : String) (fetched : Option Soup) : Option StaticData :=
  match fetched with
  | none => none
  | some soup =>
    let language := if containsSub ("lang=eng") url then "eng" else "spa"
    match searchConfSession url with
    | none => none
    | some (year, sessionNum) =>
      let conference_session := year ++ "-" ++ sessionNum
      match _extract_title soup with
      | none => none
      | some title =>
        match _extract_author soup with
        | none => none
        | some author =>
          let calling := (_extract_calling soup).getD ("Posición no identificada")
          match _extract_content soup with
          | none => none
          | some content =>
            some { title := title, author := author, calling := calling, content := content,
                   language := language, year := year, conference_session := conference_session }

/-- The CompleteTalkData dataclass. -/
structure CompleteTalkData where
  title : String
  author : String
  calling : String
  content : String
  notes : List String
  url : String
  language : String
  year : String
  conference_session : String
  extraction_timestamp : String
  note_count : Nat
  deriving DecidableEq, Repr

/-- TalkContentExtractor.extract_complete_talk: static extraction first
(None aborts the whole extraction), then the Selenium note extraction,
whose None result (the method catches every exception internally and
returns None on failure) is replaced by the empty list before the record
is assembled with note_count equal to the length of the notes list.
notesResult is the value _extract_notes_selenium returns for this url;
ts is the formatted extraction time.  The _backup_talk_metadata call on
success only mirrors metadata into the store and swallows its own
errors; it does not affect the returned record. -/
def extract_complete_talk (url : String) (fetched : Option Soup)
    (notesResult : Option (List String)) (ts : String) : Option CompleteTalkData :=
  match _extract_static_content url fetched with
  | none => none
  | some sd =>
    let notes := notesResult.getD []
    some { title := sd.title, author := sd.author, calling := sd.calling,
           content := sd.content, notes := notes, url := url, language := sd.language,
           year := sd.year, conference_session := sd.conference_session,
           extraction_timestamp := ts, note_count := notes.length }

/-- One run of the worker closure extract_single_talk_optimized, abstracted
to its inputs: either the body runs to completion (with the fetched page,
the note-extraction result and the outcome of save_talk_to_file, which
returns a path on success and None on failure), or an exception escapes
the body and is caught by the outer except clause. -/
inductive AttemptRun where
  | completes (fetched : Option Soup) (notesResult : Option (List String)) (saveOk : Bool)
  | raises

/-- The observable effects of one extract_single_talk_optimized run: the
returned (url, success, saved) tuple, the success flags of the
mark_talk_processed calls it issued in order, and whether
save_talk_to_file was invoked (the record handed to the output sink). -/
structure AttemptResult where
  ret : String × Bool × Bool
  marks : List Bool
  saveAttempted : Bool
  deriving DecidableEq, Repr

/-- The worker closure extract_single_talk_optimized of
extract_talks_batch: on a complete extraction the record is saved and the
document is marked processed with success True only when the save
succeeded (the saved condition guards the mark call); on a None
extraction, and on an exception escaping the body, the document is
marked processed with success False and no save is attempted. -/
def extract_single_talk_optimized (url ts : String) : AttemptRun → AttemptResult
  | AttemptRun.raises => { ret := (url, false, false), marks := [false], saveAttempted := false }
  | AttemptRun.completes fetched notesResult saveOk =>
    match extract_complete_talk url fetched notesResult ts with
    | some _ =>
      if saveOk then { ret := (url, true, true), marks := [true], saveAttempted := true }
      else { ret := (url, true, false), marks := [], saveAttempted := true }
    | none => { ret := (url, false, false), marks := [false], saveAttempted := false }

/-! ## Concrete fixtures used by witnesses and counterexamples -/

/-- A talk page paragraph long enough to pass the 20-character body
threshold. -/
def goodPara : Para :=
  { text := "Faith is a principle of action and power.",
    formatted := "<p>Faith is a principle of action and power.</p>" }

/-- A page on which every static field extracts successfully: the first
title, author and calling selectors match, and the body-block element
holds one long paragraph. -/
def goodSoup : Soup :=
  { selText := fun s =>
      if s = "h1.title" then some ("The Power of Faith")
      else if s = ".byline .author" then some ("By John Smith")
      else if s = ".byline .calling" then some ("Of the Quorum of the Twelve")
      else none,
    selParas := fun s => if s = ".body-block" then some [goodPara] else none,
    selLines := fun _ => none,
    allParas := [] }

/-- A document url carrying the language query and the year and session
path segments. -/
def goodUrl : String := "https://x.org/study/general-conference/2024/04/11abc?lang=eng"

/-- A fixed extraction timestamp. -/
def goodTs : String := "2025-01-01 00:00:00"

/-- The static fields _extract_static_content produces on goodSoup and
goodUrl. -/
def goodStatic : StaticData :=
  { title := "The Power of Faith", author := "John Smith",
    calling := "Of the Quorum of the Twelve",
    content := "<p>Faith is a principle of action and power.</p>",
    language := "eng", year := "2024", conference_session := "2024-04" }

/-- The complete record extract_complete_talk assembles from goodStatic
when the note extraction failed (notes replaced by the empty list). -/
def goodRecord : CompleteTalkData :=
  { title := goodStatic.title, author := goodStatic.author, calling := goodStatic.calling,
    content := goodStatic.content, notes := [], url := goodUrl, language := goodStatic.language,
    year := goodStatic.year, conference_session := goodStatic.conference_session,
    extraction_timestamp := goodTs, note_count := 0 }

/-- A page on which no selector matches and no paragraph exists. -/
def emptySoup : Soup :=
  { selText := fun _ => none, selParas := fun _ => none, selLines := fun _ => none,
    allParas := [] }

/-! ## Store lemmas -/

theorem hasConfKey_insert_self (rows : List ConferenceRow) (lang url : String) :
    hasConfKey (insertConferenceIgnore rows lang url).1 lang url = true := by
  by_cases h : hasConfKey rows lang url
  · simp [insertConferenceIgnore, h]
  · simp only [insertConferenceIgnore, if_neg h]
    simp [hasConfKey, List.any_append]

theorem hasConfKey_insert_mono (rows : List ConferenceRow) (lang url lang2 url2 : String)
    (h : hasConfKey rows lang url = true) :
    hasConfKey (insertConferenceIgnore rows lang2 url2).1 lang url = true := by
  by_cases h2 : hasConfKey rows lang2 url2
  · simpa [insertConferenceIgnore, h2] using h
  · simp only [insertConferenceIgnore, h2, if_neg, Bool.not_eq_true, if_false]
    simp [hasConfKey, List.any_append] at h ⊢
    exact Or.inl h

theorem hasConfKey_loop_mono (urls : List String) (rows : List ConferenceRow)
    (lang lang0 url0 : String) (h : hasConfKey rows lang0 url0 = true) :
    hasConfKey (storeConfLoop rows lang urls).1 lang0 url0 = true := by
  induction urls generalizing rows with
  | nil => simpa [storeConfLoop] using h
  | cons u rest ih =>
    simp only [storeConfLoop]
    exact ih _ (hasConfKey_insert_mono _ _ _ _ _ h)

theorem hasConfKey_after_loop (urls : List String) (rows : List ConferenceRow) (lang : String) :
    ∀ u ∈ urls, hasConfKey (storeConfLoop rows lang urls).1 lang u = true := by
  induction urls generalizing rows with
  | nil => intro u hu; cases hu
  | cons v rest ih =>
    intro u hu
    rcases List.mem_cons.mp hu with h | h
    · subst h
      simp only [storeConfLoop]
      exact hasConfKey_loop_mono _ _ _ _ _ (hasConfKey_insert_self _ _ _)
    · simp only [storeConfLoop]
      exact ih _ u h

theorem storeConfLoop_idem (urls : List String) (rows : List ConferenceRow) (lang : String)
    (h : ∀ u ∈ urls, hasConfKey rows lang u = true) :
    storeConfLoop rows lang urls = (rows, 0) := by
  induction urls with
  | nil => rfl
  | cons u rest ih =>
    have hu : hasConfKey rows lang u = true := h u (List.mem_cons_self u rest)
    simp only [storeConfLoop, insertConferenceIgnore, hu, if_true]
    rw [ih (fun v hv => h v (List.mem_cons_of_mem u hv))]
    simp

theorem hasTalkKey_insert_self (rows : List TalkRow) (conf url lang : String) :
    hasTalkKey (insertTalkIgnore rows conf url lang).1 conf url = true := by
  by_cases h : hasTalkKey rows conf url
  · simp [insertTalkIgnore, h]
  · simp only [insertTalkIgnore, if_neg h]
    simp [hasTalkKey, List.any_append]

theorem hasTalkKey_insert_mono (rows : List TalkRow) (conf url conf2 url2 lang2 : String)
    (h : hasTalkKey rows conf url = true) :
    hasTalkKey (insertTalkIgnore rows conf2 url2 lang2).1 conf url = true := by
  by_cases h2 : hasTalkKey rows conf2 url2
  · simpa [insertTalkIgnore, h2] using h
  · simp only [insertTalkIgnore, h2, if_neg, Bool.not_eq_true, if_false]
    simp [hasTalkKey, List.any_append] at h ⊢
    exact Or.inl h

theorem hasTalkKey_loop_mono (urls : List String) (rows : List TalkRow)
    (conf lang conf0 url0 : String) (h : hasTalkKey rows conf0 url0 = true) :
    hasTalkKey (storeTalkLoop rows conf lang urls).1 conf0 url0 = true := by
  induction urls generalizing rows with
  | nil => simpa [storeTalkLoop] using h
  | cons u rest ih =>
    simp only [storeTalkLoop]
    exact ih _ (hasTalkKey_insert_mono _ _ _ _ _ _ h)

theorem hasTalkKey_after_loop (urls : List String) (rows : List TalkRow) (conf lang : String) :
    ∀ u ∈ urls, hasTalkKey (storeTalkLoop rows conf lang urls).1 conf u = true := by
  induction urls generalizing rows with
  | nil => intro u hu; cases hu
  | cons v rest ih =>
    intro u hu
    rcases List.mem_cons.mp hu with h | h
    · subst h
      simp only [storeTalkLoop]
      exact hasTalkKey_loop_mono _ _ _ _ _ _ (hasTalkKey_insert_self _ _ _ _)
    · simp only [storeTalkLoop]
      exact ih _ u h

theorem storeTalkLoop_idem (urls : List String) (rows : List TalkRow) (conf lang : String)
    (h : ∀ u ∈ urls, hasTalkKey rows conf u = true) :
    storeTalkLoop rows conf lang urls = (rows, 0) := by
  induction urls with
  | nil => rfl
  | cons u rest ih =>
    have hu : hasTalkKey rows conf u = true := h u (List.mem_cons_self u rest)
    simp only [storeTalkLoop, insertTalkIgnore, hu, if_true]
    rw [ih (fun v hv => h v (List.mem_cons_of_mem u hv))]
    simp

/-- Claim C3: for every language, parent conference URL and list of URLs,
calling store_conference_urls or store_talk_urls a second time with the
same input leaves the stored state exactly as it was after the first
call and returns an inserted count of 0; duplicates are ignored by the
INSERT OR IGNORE keys rather than raising (both operations are total in
this model, mirroring the per-row error handling of the source). -/
theorem C3_idempotent_put (st : DBState) (language conference_url : String)
    (urls : List String) :
    store_conference_urls (store_conference_urls st language urls).1 language urls
      = ((store_conference_urls st language urls).1, 0)
    ∧ store_talk_urls (store_talk_urls st conference_url language urls).1
        conference_url language urls
      = ((store_talk_urls st conference_url language urls).1, 0) := by
  constructor
  · simp only [store_conference_urls]
    rw [storeConfLoop_idem urls _ language (hasConfKey_after_loop urls _ language)]
  · simp only [store_talk_urls]
    rw [storeTalkLoop_idem urls _ conference_url language
      (hasTalkKey_after_loop urls _ conference_url language)]

theorem marked_row_processed (st : DBState) (url : String) (success : Bool) :
    ∀ r ∈ (mark_talk_processed st url success).talk_urls, r.talk_url = url → r.processed = true := by
  intro r hr hurl
  simp only [mark_talk_processed, List.mem_map] at hr
  obtain ⟨r0, _, hmap⟩ := hr
  by_cases hb : r0.talk_url == url
  · rw [← hmap]
    simp [hb]
  · exfalso
    rw [← hmap] at hurl
    simp only [hb, if_neg, Bool.not_eq_true, if_false] at hurl
    exact hb (by simp [hurl])

theorem marked_not_pending (st : DBState) (url : String) (success : Bool)
    (lang : String) (limit : Option Nat) :
    url ∉ get_unprocessed_talk_urls (mark_talk_processed st url success) lang limit := by
  intro hmem
  have hsorted : url ∈ List.insertionSort descStr
      (((mark_talk_processed st url success).talk_urls.filter
        (fun r => r.language == lang && !r.processed)).map (fun r => r.talk_url)) := by
    cases limit with
    | none => exact hmem
    | some n => exact List.mem_of_mem_take hmem
  have hpend := (List.perm_insertionSort descStr _).mem_iff.mp hsorted
  simp only [List.mem_map, List.mem_filter] at hpend
  obtain ⟨r, ⟨hrmem, hflt⟩, hurl⟩ := hpend
  have hproc : r.processed = true :=
    marked_row_processed st url success r hrmem hurl
  simp [hproc] at hflt

/-- Claim C4: mark_talk_processed sets the processed flag of every
talk_urls row carrying the URL, for both values of success, appends
exactly one processing_log entry whose status reflects success, and
afterwards the URL is absent from every get_unprocessed_talk_urls result
for every language and limit.  The store state is the persisted content,
so a fresh open of the same file reads the same DBState and the
exclusion carries over; no modelled operation resets a processed flag. -/
theorem C4_mark_processed_terminal (st : DBState) (url : String) (success : Bool) :
    (∀ r ∈ (mark_talk_processed st url success).talk_urls,
        r.talk_url = url → r.processed = true)
    ∧ (∃ e, (mark_talk_processed st url success).processing_log = st.processing_log ++ [e]
        ∧ e.url = some url ∧ e.status = (if success then "success" else "failed"))
    ∧ ∀ lang limit, url ∉ get_unprocessed_talk_urls (mark_talk_processed st url success) lang limit := by
  refine ⟨marked_row_processed st url success, ⟨_, rfl, rfl, rfl⟩, ?_⟩
  intro lang limit
  exact marked_not_pending st url success lang limit

/-- Witness for C4 at a concrete store: a one-row store marked for its
only URL no longer lists that URL as pending. -/
theorem C4_witness :
    "https://t.example/a" ∉ get_unprocessed_talk_urls
      (mark_talk_processed
        ⟨[], [{ conference_url := "c", talk_url := "https://t.example/a", language := "eng",
                processed := false, title := none, author := none, calling := none,
                conference := none }], []⟩
        ("https://t.example/a") true)
      ("eng") none :=
  (C4_mark_processed_terminal
    ⟨[], [{ conference_url := "c", talk_url := "https://t.example/a", language := "eng",
            processed := false, title := none, author := none, calling := none,
            conference := none }], []⟩
    ("https://t.example/a") true).2.2 ("eng") none

/-- Claim C8: get_unprocessed_talk_urls returns the pending (unprocessed)
talk URLs of the language sorted in reverse lexicographic order of the
URL string (descStr, the order ORDER BY talk_url DESC induces), and a
supplied limit n returns exactly the first n elements of the unlimited
order (all of them when fewer than n are pending, since take is total). -/
theorem C8_pending_order (st : DBState) (language : String) (n : Nat) :
    List.Sorted descStr (get_unprocessed_talk_urls st language none)
    ∧ (get_unprocessed_talk_urls st language none).Perm
        ((st.talk_urls.filter
            (fun r => r.language == language && !r.processed)).map (fun r => r.talk_url))
    ∧ get_unprocessed_talk_urls st language (some n)
        = (get_unprocessed_talk_urls st language none).take n := by
  refine ⟨List.sorted_insertionSort descStr _, List.perm_insertionSort descStr _, rfl⟩

/-- Witness for C8 at a concrete store with two pending URLs, evaluating
the returned order. -/
theorem C8_witness :
    List.Sorted descStr (get_unprocessed_talk_urls
      ⟨[], [{ conference_url := "c", talk_url := "https://t.example/a", language := "eng",
              processed := false, title := none, author := none, calling := none,
              conference := none },
            { conference_url := "c", talk_url := "https://t.example/b", language := "eng",
              processed := false, title := none, author := none, calling := none,
              conference := none }], []⟩
      ("eng") none) :=
  (C8_pending_order
    ⟨[], [{ conference_url := "c", talk_url := "https://t.example/a", language := "eng",
            processed := false, title := none, author := none, calling := none,
            conference := none },
          { conference_url := "c", talk_url := "https://t.example/b", language := "eng",
            processed := false, title := none, author := none, calling := none,
            conference := none }], []⟩
    ("eng") 0).1

/-- Claim C10 (implicit): the two mark operations select rows by the URL
string alone, not by the declared unique keys: after
mark_conference_processed every conference row carrying the url is
processed whatever its language, after mark_talk_processed every talk
row carrying the talk url is processed whatever its parent conference or
language, and rows carrying a different url pass through unchanged. -/
theorem C10_mark_by_url_only (st : DBState) (url : String) (success : Bool) :
    (∀ r ∈ (mark_conference_processed st url).conference_urls,
        r.url = url → r.processed = true)
    ∧ (mark_conference_processed st url).conference_urls
        = st.conference_urls.map (fun r => if r.url = url then { r with processed := true } else r)
    ∧ (∀ r ∈ (mark_talk_processed st url success).talk_urls,
        r.talk_url = url → r.processed = true)
    ∧ (mark_talk_processed st url success).talk_urls
        = st.talk_urls.map (fun r => if r.talk_url = url then { r with processed := true } else r) := by
  refine ⟨?_, ?_, marked_row_processed st url success, ?_⟩
  · intro r hr hurl
    simp only [mark_conference_processed, List.mem_map] at hr
    obtain ⟨r0, _, hmap⟩ := hr
    by_cases hb : r0.url == url
    · rw [← hmap]; simp [hb]
    · exfalso
      rw [← hmap] at hurl
      simp only [hb, if_neg, Bool.not_eq_true, if_false] at hurl
      exact hb (by simp [hurl])
  · simp only [mark_conference_processed]
    apply List.map_congr_left
    intro r _
    by_cases hb : r.url = url
    · simp [hb]
    · simp [hb]
  · simp only [mark_talk_processed]
    apply List.map_congr_left
    intro r _
    by_cases hb : r.talk_url = url
    · simp [hb]
    · simp [hb]

/-- Witness for C10 at a concrete store holding the same conference URL
under two languages and the same talk URL under two parents: a single
mark call processes both rows of each table. -/
theorem C10_witness :
    (mark_conference_processed
        ⟨[{ language := "eng", url := "u", processed := false },
          { language := "spa", url := "u", processed := false }],
         [{ conference_url := "A", talk_url := "t", language := "eng", processed := false,
            title := none, author := none, calling := none, conference := none },
          { conference_url := "B", talk_url := "t", language := "spa", processed := false,
            title := none, author := none, calling := none, conference := none }], []⟩
        ("u")).conference_urls
      = [{ language := "eng", url := "u", processed := true },
         { language := "spa", url := "u", processed := true }] := by
  rw [(C10_mark_by_url_only
    ⟨[{ language := "eng", url := "u", processed := false },
      { language := "spa", url := "u", processed := false }],
     [{ conference_url := "A", talk_url := "t", language := "eng", processed := false,
        title := none, author := none, calling := none, conference := none },
      { conference_url := "B", talk_url := "t", language := "spa", processed := false,
        title := none, author := none, calling := none, conference := none }], []⟩
    ("u") true).2.1]
  decide

/-- Claim C7: store_talk_urls writes only the talk_urls table, leaving
every conference_urls row untouched, and the enumerator body marks the
parent conference processed exactly when the store call reported at
least one newly inserted document URL, leaving the conference rows as
they were (still pending) when zero new URLs were stored. -/
theorem C7_put_documents_frame (st : DBState) (conference_url language : String)
    (urls : List String) :
    (store_talk_urls st conference_url language urls).1.conference_urls = st.conference_urls
    ∧ ((store_talk_urls st conference_url language urls).2 = 0 →
        (processConference st conference_url language urls).conference_urls
          = st.conference_urls)
    ∧ (0 < (store_talk_urls st conference_url language urls).2 →
        processConference st conference_url language urls
          = mark_conference_processed (store_talk_urls st conference_url language urls).1
              conference_url) := by
  refine ⟨rfl, ?_, ?_⟩
  · intro h0
    cases urls with
    | nil => rfl
    | cons u rest =>
      simp only [processConference, List.isEmpty_cons, Bool.false_eq_true, if_false]
      rw [h0]
      simp only [Nat.lt_irrefl, if_false]
      rfl
  · intro hpos
    cases urls with
    | nil =>
      exfalso
      simp [store_talk_urls, storeTalkLoop] at hpos
    | cons u rest =>
      simp only [processConference, List.isEmpty_cons, Bool.false_eq_true, if_false]
      rw [if_pos hpos]

/-- Witness for C7: storing one new talk URL into an empty store marks the
parent conference via mark_conference_processed on the stored state. -/
theorem C7_witness :
    processConference emptyDB ("A") ("eng") ["t1"]
      = mark_conference_processed (store_talk_urls emptyDB ("A") ("eng") ["t1"]).1 ("A") :=
  (C7_put_documents_frame emptyDB ("A") ("eng") ["t1"]).2.2 (by decide)

/-- A url whose every fetch attempt yields an HTTP 404 client error: the
response raises requests.HTTPError (a RequestException) from
raise_for_status on each attempt. -/
def always404 : Nat → FetchOutcome := fun _ => FetchOutcome.reqError (some 404)

/-- Counterexample to claim C2: with the default retry_attempts of 3, a
conference page answering 404 on every request is fetched three times,
not terminated after the first 4xx response; the except clause catches
every requests.RequestException, and the HTTPError that
raise_for_status raises for a 4xx response is one, so it is retried like
a transient failure. -/
theorem C2_counterexample :
    (extract_conference_talk_urls always404 3).2 = 3
    ∧ (extract_conference_talk_urls always404 3).2 ≠ 1 := by
  decide

theorem reqError_loop_exhausts (outcomes : Nat → FetchOutcome) (statusOf : Nat → Option Nat)
    (h : ∀ j, outcomes j = FetchOutcome.reqError (statusOf j)) :
    ∀ remaining i, fetchAttemptLoop outcomes i remaining = ([], remaining) := by
  intro remaining
  induction remaining with
  | zero => intro i; rfl
  | succ n ih =>
    intro i
    simp only [fetchAttemptLoop, h i, ih (i + 1)]

/-- Claim C2 amended: the fetch loop of _extract_conference_talk_urls
retries every requests.RequestException with the fixed inter-attempt
delay, and a response with a 4xx status raises requests.HTTPError, a
RequestException subclass, so 4xx client errors are retried exactly like
transient network failures: when every attempt raises a RequestException
(whatever HTTP status each carries, 4xx included) the loop performs the
full configured attempt count and returns the empty URL list.  Only an
exception outside the RequestException hierarchy stops the loop at once. -/
theorem C2_amended (outcomes : Nat → FetchOutcome) (statusOf : Nat → Option Nat)
    (retryAttempts : Nat)
    (h : ∀ j, outcomes j = FetchOutcome.reqError (statusOf j)) :
    (extract_conference_talk_urls outcomes retryAttempts).2 = retryAttempts
    ∧ (extract_conference_talk_urls outcomes retryAttempts).1 = [] := by
  unfold extract_conference_talk_urls
  rw [reqError_loop_exhausts outcomes statusOf h retryAttempts 0]
  exact ⟨rfl, rfl⟩

/-- Witness for the amended C2 at the concrete 404 outcome sequence and
the default attempt count. -/
theorem C2_amended_witness :
    (extract_conference_talk_urls always404 3).2 = 3
    ∧ (extract_conference_talk_urls always404 3).1 = [] :=
  C2_amended always404 (fun _ => some 404) 3 (fun _ => rfl)

/-- Counterexample to claim C1: a document whose extraction succeeds
(goodSoup yields a complete record) but whose save_talk_to_file call
fails completes its attempt with no mark_talk_processed call at all; the
mark with success True is guarded by the saved condition and the failure
branches of the closure are not reached, so the worker returns
(url, True, False) and the document URL stays pending. -/
theorem C1_counterexample :
    (extract_single_talk_optimized goodUrl goodTs
        (AttemptRun.completes (some goodSoup) (some []) false)).marks = []
    ∧ (extract_single_talk_optimized goodUrl goodTs
        (AttemptRun.completes (some goodSoup) (some []) false)).ret = (goodUrl, true, false) := by
  decide

/-- Claim C1 amended: a processing attempt of extract_single_talk_optimized
marks the document processed in every case except one: an attempt whose
extraction produced a record but whose file save failed issues no mark
at all and leaves the document pending, while returning success with
saved False.  In detail: an exception escaping the body marks
processed(success=False); a None extraction marks processed(success=False)
without touching the output sink; a successful extraction attempts the
save, and marks processed(success=True) only when the save succeeded. -/
theorem C1_amended (url ts : String) (fetched : Option Soup)
    (notesResult : Option (List String)) (saveOk : Bool) :
    (extract_single_talk_optimized url ts AttemptRun.raises
      = { ret := (url, false, false), marks := [false], saveAttempted := false })
    ∧ (extract_complete_talk url fetched notesResult ts = none →
        extract_single_talk_optimized url ts (AttemptRun.completes fetched notesResult saveOk)
          = { ret := (url, false, false), marks := [false], saveAttempted := false })
    ∧ (∀ rec, extract_complete_talk url fetched notesResult ts = some rec →
        extract_single_talk_optimized url ts (AttemptRun.completes fetched notesResult true)
          = { ret := (url, true, true), marks := [true], saveAttempted := true }
        ∧ extract_single_talk_optimized url ts (AttemptRun.completes fetched notesResult false)
          = { ret := (url, true, false), marks := [], saveAttempted := true }) := by
  refine ⟨rfl, ?_, ?_⟩
  · intro hnone
    simp [extract_single_talk_optimized, hnone]
  · intro rec hsome
    constructor
    · simp [extract_single_talk_optimized, hsome]
    · simp [extract_single_talk_optimized, hsome]

/-- Witness for the amended C1 at the concrete successful page: with the
save failing, the attempt issues no mark and leaves the URL pending. -/
theorem C1_amended_witness :
    extract_single_talk_optimized goodUrl goodTs
        (AttemptRun.completes (some goodSoup) none false)
      = { ret := (goodUrl, true, false), marks := [], saveAttempted := true } :=
  ((C1_amended goodUrl goodTs (some goodSoup) none false).2.2 goodRecord (by decide)).2

/-- Claim C5: when the static fields of a document extract and validate
successfully, a failed note extraction (None from
_extract_notes_selenium, which catches every internal exception) is
non-fatal: extract_complete_talk still assembles the full record,
with the empty notes list and note_count 0, instead of returning None. -/
theorem C5_footnote_degradation (url ts : String) (fetched : Option Soup) (sd : StaticData)
    (h : _extract_static_content url fetched = some sd) :
    extract_complete_talk url fetched none ts
      = some { title := sd.title, author := sd.author, calling := sd.calling,
               content := sd.content, notes := [], url := url, language := sd.language,
               year := sd.year, conference_session := sd.conference_session,
               extraction_timestamp := ts, note_count := 0 } := by
  simp [extract_complete_talk, h]

/-- Witness for C5 at the concrete successful page. -/
theorem C5_witness :
    extract_complete_talk goodUrl (some goodSoup) none goodTs = some goodRecord :=
  C5_footnote_degradation goodUrl goodTs (some goodSoup) goodStatic (by decide)

/-- The title failure condition of claim C6 on a page: every title
selector candidate either matches nothing or yields text that is empty
or not longer than the 3-character minimum. -/
def titleInvalid (soup : Soup) : Prop :=
  ∀ s ∈ title_selectors, ∀ t, soup.selText s = some t → t = "" ∨ t.length ≤ 3

/-- The author failure condition of claim C6 on a page: every author
selector candidate yields nothing valid after the By/Por strip (empty or
not longer than 2 characters), and the By-pattern fallback over the first
five paragraphs captures nothing longer than 2 characters. -/
def authorInvalid (soup : Soup) : Prop :=
  (∀ s ∈ author_selectors, ∀ t, soup.selText s = some t →
      stripAuthorPref t = "" ∨ (stripAuthorPref t).length ≤ 2)
  ∧ ∀ p ∈ soup.allParas.take 5, ∀ g, bylineAuthorMatch p.text.data = some g →
      (pyStrip g).length ≤ 2

/-- The body failure condition of claim C6 on a page: no paragraph of the
selected content element (or of the whole document when no content
selector matches) reaches the 20-character minimum length. -/
def contentInvalid (soup : Soup) : Prop :=
  ∀ p ∈ ((firstContentParas soup content_selectors).getD soup.allParas), p.text.length < 20

theorem firstTitleFrom_none (soup : Soup) (sels : List String)
    (h : ∀ s ∈ sels, ∀ t, soup.selText s = some t → t = "" ∨ t.length ≤ 3) :
    firstTitleFrom soup sels = none := by
  induction sels with
  | nil => rfl
  | cons s rest ih =>
    simp only [firstTitleFrom]
    cases hsel : soup.selText s with
    | none => exact ih (fun s2 hs2 => h s2 (List.mem_cons_of_mem s hs2))
    | some t =>
      have ht := h s (List.mem_cons_self s rest) t hsel
      have hcond : ¬(t ≠ "" ∧ t.length > 3) := by
        rcases ht with h1 | h1
        · intro hc; exact hc.1 h1
        · intro hc; omega
      dsimp only
      rw [if_neg hcond]
      exact ih (fun s2 hs2 => h s2 (List.mem_cons_of_mem s hs2))

theorem firstAuthorFrom_none (soup : Soup) (sels : List String)
    (h : ∀ s ∈ sels, ∀ t, soup.selText s = some t →
        stripAuthorPref t = "" ∨ (stripAuthorPref t).length ≤ 2) :
    firstAuthorFrom soup sels = none := by
  induction sels with
  | nil => rfl
  | cons s rest ih =>
    simp only [firstAuthorFrom]
    cases hsel : soup.selText s with
    | none => exact ih (fun s2 hs2 => h s2 (List.mem_cons_of_mem s hs2))
    | some t =>
      have ht := h s (List.mem_cons_self s rest) t hsel
      have hcond : ¬(stripAuthorPref t ≠ "" ∧ (stripAuthorPref t).length > 2) := by
        rcases ht with h1 | h1
        · intro hc; exact hc.1 h1
        · intro hc; omega
      dsimp only
      rw [if_neg hcond]
      exact ih (fun s2 hs2 => h s2 (List.mem_cons_of_mem s hs2))

theorem fallbackAuthorFrom_none (paras : List Para)
    (h : ∀ p ∈ paras, ∀ g, bylineAuthorMatch p.text.data = some g → (pyStrip g).length ≤ 2) :
    fallbackAuthorFrom paras = none := by
  induction paras with
  | nil => rfl
  | cons p rest ih =>
    simp only [fallbackAuthorFrom]
    cases hm : bylineAuthorMatch p.text.data with
    | none => exact ih (fun q hq => h q (List.mem_cons_of_mem p hq))
    | some g =>
      have hg := h p (List.mem_cons_self p rest) g hm
      have hcond : ¬((pyStrip g).length > 2) := by omega
      dsimp only
      rw [if_neg hcond]
      exact ih (fun q hq => h q (List.mem_cons_of_mem p hq))

theorem content_foldr_nil (paras : List Para)
    (h : ∀ p ∈ paras, p.text.length < 20) :
    paras.foldr
      (fun p acc =>
        if p.text.length < 20 then acc
        else if p.formatted ≠ "" then p.formatted :: acc else acc) [] = [] := by
  induction paras with
  | nil => rfl
  | cons p rest ih =>
    simp only [List.foldr_cons]
    rw [if_pos (h p (List.mem_cons_self p rest))]
    exact ih (fun q hq => h q (List.mem_cons_of_mem p hq))

theorem contentInvalid_none (soup : Soup) (h : contentInvalid soup) :
    _extract_content soup = none := by
  unfold _extract_content contentInvalid at *
  cases hsel : (firstContentParas soup content_selectors).getD soup.allParas with
  | nil =>
    cases hfc : firstContentParas soup content_selectors with
    | none => simp [hfc] at hsel; simp [hfc, hsel]
    | some ps => simp [hfc] at hsel; simp [hfc, hsel]
  | cons q qs =>
    rw [hsel] at h
    have hfold := content_foldr_nil (q :: qs) h
    cases hfc : firstContentParas soup content_selectors with
    | none =>
      simp only [hfc, Option.getD_none] at hsel
      simp only [hfc, hsel]
      rw [hfold]
    | some ps =>
      simp only [hfc, Option.getD_some] at hsel
      simp only [hfc, hsel]
      rw [hfold]

/-- Claim C6: a fetched page whose title is missing or not longer than the
3-character minimum, or whose author is missing or not longer than the
2-character minimum (selector candidates and By-pattern fallback alike),
or none of whose body paragraphs reaches the 20-character minimum, makes
_extract_static_content return None; the worker then marks the document
processed with success False and never calls save_talk_to_file, so no
record reaches the output sink and the document is never persisted as
succeeded. -/
theorem C6_validation_rejects (url ts : String) (soup : Soup)
    (notesResult : Option (List String)) (saveOk : Bool)
    (h : titleInvalid soup ∨ authorInvalid soup ∨ contentInvalid soup) :
    _extract_static_content url (some soup) = none
    ∧ extract_single_talk_optimized url ts (AttemptRun.completes (some soup) notesResult saveOk)
      = { ret := (url, false, false), marks := [false], saveAttempted := false } := by
  have hstatic : _extract_static_content url (some soup) = none := by
    rcases h with ht | ha | hc
    · have htl : _extract_title soup = none := firstTitleFrom_none soup title_selectors ht
      unfold _extract_static_content
      cases hcs : searchConfSession url with
      | none => rfl
      | some ym =>
        obtain ⟨y, m⟩ := ym
        dsimp only
        rw [htl]
    · have hauth : _extract_author soup = none := by
        unfold _extract_author
        rw [firstAuthorFrom_none soup author_selectors ha.1]
        exact fallbackAuthorFrom_none _ ha.2
      unfold _extract_static_content
      cases hcs : searchConfSession url with
      | none => rfl
      | some ym =>
        obtain ⟨y, m⟩ := ym
        dsimp only
        cases htl : _extract_title soup with
        | none => rfl
        | some _ =>
          dsimp only
          rw [hauth]
    · have hcontent : _extract_content soup = none := contentInvalid_none soup hc
      unfold _extract_static_content
      cases hcs : searchConfSession url with
      | none => rfl
      | some ym =>
        obtain ⟨y, m⟩ := ym
        dsimp only
        cases htl : _extract_title soup with
        | none => rfl
        | some _ =>
          dsimp only
          cases hau : _extract_author soup with
          | none => rfl
          | some a =>
            dsimp only
            rw [hcontent]
  have hct : extract_complete_talk url (some soup) notesResult ts = none := by
    unfold extract_complete_talk
    rw [hstatic]
  refine ⟨hstatic, ?_⟩
  simp [extract_single_talk_optimized, hct]

/-- Witness for C6 at the concrete empty page (no selector matches, no
paragraphs), which satisfies the title failure condition vacuously. -/
theorem C6_witness :
    _extract_static_content ("u") (some emptySoup) = none
    ∧ extract_single_talk_optimized ("u") ("t")
        (AttemptRun.completes (some emptySoup) none true)
      = { ret := ("u", false, false), marks := [false], saveAttempted := false } :=
  C6_validation_rejects ("u") ("t") emptySoup none true
    (Or.inl (fun _ _ _ ht => Option.noConfusion ht))

/-- The parent conference of the C9 scenario. -/
def c9confA : String := "https://conf.example/A"

/-- The first document URL of the C9 scenario. -/
def c9d1 : String := "https://talks.example/d1"

/-- The second document URL of the C9 scenario. -/
def c9d2 : String := "https://talks.example/d2"

/-- The store after the C9 scenario: starting empty,
store_talk_urls(A, eng, [d1, d2]), then mark_talk_processed(d1, True)
and mark_talk_processed(d2, False). -/
def c9state : DBState :=
  mark_talk_processed
    (mark_talk_processed (store_talk_urls emptyDB c9confA ("eng") [c9d1, c9d2]).1 c9d1 true)
    c9d2 false

/-- Counterexample to claim C9: the two processing_log rows the scenario
appends do not carry the language of conference A; mark_talk_processed
inserts (operation, url, status, message) only, leaving the language
column NULL, so neither entry has language eng. -/
theorem C9_counterexample :
    ¬ ∀ e ∈ c9state.processing_log, e.language = some ("eng") := by
  decide

/-- Claim C9 amended: after the scenario, GetPendingDocumentURLs(eng) is
empty, the stats for eng documents report total 2 and processed 2, and
the log holds exactly two entries, one success for d1 and one failed for
d2 — but with the language column NULL (unset) rather than carrying the
language of conference A. -/
theorem C9_amended :
    get_unprocessed_talk_urls c9state ("eng") none = []
    ∧ get_processing_stats_talks c9state ("eng") = (2, 2)
    ∧ c9state.processing_log =
        [{ operation := "talk_content_extraction", language := none, url := some c9d1,
           status := "success", message := some ("Talk content extraction completed") },
         { operation := "talk_content_extraction", language := none, url := some c9d2,
           status := "failed", message := some ("Talk content extraction failed") }] := by
  decide
